import Mathlib

/-!
Verification of the macrodata memory store (worker `mcp-agent.ts`) and the
conversation indexer (`plugins/macrodata/src/indexer.ts`) against their
natural-language specification.

The embedding is shallow: SQLite tables become Lean lists of rows, the
Vectorize service becomes a list of vector records inside an explicit
`World`, network calls (embedding generation, vector upsert) become
functions supplied by an `Env`, and thrown JS errors become `Except`
results.  String timestamps are compared with the byte/codepoint order
that SQLite's BINARY collation uses.
-/

namespace Macrodata

/-- Lexicographic comparison of char lists by codepoint, mirroring
SQLite's BINARY collation on UTF-8 text (UTF-8 byte order coincides with
codepoint order). -/
def strListLt : List Char → List Char → Bool
  | [], [] => false
  | [], _ :: _ => true
  | _ :: _, [] => false
  | a :: as, b :: bs =>
    if a.toNat < b.toNat then true
    else if b.toNat < a.toNat then false
    else strListLt as bs

/-- Holds `a < b` in SQLite BINARY collation order. -/
def strLtB (a b : String) : Bool := strListLt a.toList b.toList

/-- Holds `a <= b` in SQLite BINARY collation order. -/
def strLeB (a b : String) : Bool := !(strLtB b a)

/-- JavaScript truthiness of an optional string: `undefined` and `""` are
falsy, every other string is truthy. -/
def strTruthy : Option String → Bool
  | none => false
  | some s => !(s == "")

/-- JavaScript `Array.prototype.slice(0, n)` for a possibly negative end index `n`. -/
def jsSlice0 (n : Int) (l : List α) : List α :=
  if n < 0 then l.take (max 0 ((l.length : Int) + n)).toNat
  else l.take n.toNat

/-- SQLite `LIMIT n`: a negative limit means no limit. -/
def sqlTake (n : Int) (l : List α) : List α :=
  if n < 0 then l else l.take n.toNat

/-- SQLite `OFFSET n`: a non-positive offset skips nothing. -/
def sqlDrop (n : Int) (l : List α) : List α :=
  if n ≤ 0 then l else l.drop n.toNat

-- ==========================================
-- Relational rows (mcp-agent.ts tables)
-- ==========================================

/-- A row of the `core_context` table. -/
structure CoreRow where
  which : String
  content : String
  updated_at : String
deriving DecidableEq, Repr

/-- A row of the `knowledge` table.  `tags` holds the decoded form of the
JSON text column (`null` becomes `none`). -/
structure KnowledgeRow where
  id : String
  type : String
  name : String
  content : String
  tags : Option (List String)
  created_at : String
  updated_at : String
deriving DecidableEq, Repr

/-- A row of the `journal` table. -/
structure JournalRow where
  id : String
  topic : String
  content : String
  intent : Option String
  timestamp : String
deriving DecidableEq, Repr

/-- A row of the legacy v1 `state_files` table. -/
structure OldStateRow where
  id : String
  type : String
  name : String
  content : String
  updated_at : String
deriving DecidableEq, Repr

/-- One tenant's SQLite state.  `state_files = none` models the legacy
table being absent (dropped). -/
structure TenantState where
  core : List CoreRow
  knowledge : List KnowledgeRow
  journal : List JournalRow
  state_files : Option (List OldStateRow)
deriving DecidableEq, Repr

/-- Metadata stored on a Vectorize record. -/
structure VectorMeta where
  type : String
  subtype : Option String
  name : Option String
  topic : Option String
  timestampMs : Int
  content : String
deriving DecidableEq, Repr

/-- A record in the Vectorize index. -/
structure VectorRecord where
  id : String
  values : List Int
  metadata : VectorMeta
deriving DecidableEq, Repr

/-- A `StateEvent` broadcast to WebSocket subscribers. -/
structure StateEvent where
  source : String
  action : String
  key : String
  summary : Option String
  timestamp : String
deriving DecidableEq, Repr

/-- Observable world of one tenant actor: SQLite state, the Vectorize
index, and traces of broadcasts, embedding requests and vector deletes. -/
structure World where
  state : TenantState
  vectors : List VectorRecord
  events : List StateEvent
  embedLog : List String
  vdeleteLog : List String
deriving DecidableEq, Repr

/-- Dependency failures a mutating write can surface. -/
inductive MErr where
  | embedFailed
  | vectorFailed
deriving DecidableEq, Repr

/-- Metadata filter built by `semanticQuery` for `VECTORIZE.query`. -/
structure VFilter where
  typeEq : Option String
  subtypeEq : Option String
  topicEq : Option String
  tsGte : Option Int
  tsLte : Option Int
deriving DecidableEq, Repr

/-- A match returned by `VECTORIZE.query`. -/
structure VMatch where
  id : String
  score : ℚ
  metadata : VectorMeta
deriving DecidableEq, Repr

/-- External collaborators of the worker: the embedding model (`none`
models a failed `AI.run` call), the vector service's upsert outcome and
query function, `Date.now()`, and JS date formatting/parsing. -/
structure Env where
  embed : String → Option (List Int)
  upsertOk : Bool
  nowMs : Int
  msToIso : Int → String
  parseDateMs : String → Int
  vquery : List Int → Int → Option VFilter → List VMatch

-- ==========================================
-- Relational primitives
-- ==========================================

/-- SQL `SELECT * FROM core_context WHERE which = ?` taking `result[0]`. -/
def getCoreContext (st : TenantState) (which : String) : Option CoreRow :=
  st.core.find? (fun r => r.which == which)

/-- SQL `INSERT OR REPLACE INTO core_context`: the conflicting row (keyed by
`which`) is deleted and the new row appended (fresh rowid). -/
def coreUpsertRow (st : TenantState) (r : CoreRow) : TenantState :=
  { st with core := st.core.filter (fun c => !(c.which == r.which)) ++ [r] }

/-- SQL `SELECT * FROM knowledge WHERE type = ? AND name = ?` taking
`result[0]`. -/
def getKnowledge (st : TenantState) (type name : String) : Option KnowledgeRow :=
  st.knowledge.find? (fun r => r.type == type && r.name == name)

/-- SQL `INSERT OR REPLACE INTO knowledge`: rows conflicting on the `id`
primary key or on the `UNIQUE(type, name)` constraint are deleted, then
the new row is appended. -/
def knowledgeUpsertRow (st : TenantState) (r : KnowledgeRow) : TenantState :=
  { st with
    knowledge :=
      st.knowledge.filter
        (fun k => !(k.id == r.id || (k.type == r.type && k.name == r.name))) ++ [r] }

/-- Upsert into the Vectorize index: replace any record with the same id,
appending the new one. -/
def vectorUpsert (vecs : List VectorRecord) (r : VectorRecord) : List VectorRecord :=
  vecs.filter (fun v => !(v.id == r.id)) ++ [r]

/-- The canonical id `knowledge-<type>-<name>`. -/
def knowledgeId (type name : String) : String :=
  "knowledge-" ++ type ++ "-" ++ name

-- ==========================================
-- Mutating writes (saveCoreContext / saveKnowledge / saveJournal /
-- deleteKnowledge in mcp-agent.ts)
-- ==========================================

/-- Models `MemoryAgent.saveCoreContext`.  The SQLite write commits first; then
the embedding request and vector upsert run (either may fail, surfacing
`MErr` while the relational write stays committed); the event is
broadcast last.  `now` stands for `new Date().toISOString()`. -/
def saveCoreContext (env : Env) (w : World) (which content now : String) :
    World × Except MErr Unit :=
  let existing := getCoreContext w.state which
  let st1 := coreUpsertRow w.state ⟨which, content, now⟩
  let text := which ++ ": " ++ content
  let w1 := { w with state := st1, embedLog := w.embedLog ++ [text] }
  match env.embed text with
  | none => (w1, .error .embedFailed)
  | some v =>
    if env.upsertOk then
      let vr : VectorRecord :=
        ⟨"core-" ++ which, v, ⟨"core", none, some which, none, env.nowMs, content⟩⟩
      let ev : StateEvent :=
        ⟨"core", if existing.isSome then "updated" else "created", which,
          some (content.take 100), now⟩
      ({ w1 with vectors := vectorUpsert w1.vectors vr, events := w1.events ++ [ev] },
        .ok ())
    else (w1, .error .vectorFailed)

/-- Models `MemoryAgent.saveKnowledge`. -/
def saveKnowledge (env : Env) (w : World)
    (type name content : String) (tags : Option (List String)) (now : String) :
    World × Except MErr String :=
  let id := knowledgeId type name
  let existing := getKnowledge w.state type name
  let row : KnowledgeRow :=
    ⟨id, type, name, content, tags,
      (existing.map (·.created_at)).getD now, now⟩
  let st1 := knowledgeUpsertRow w.state row
  let text := type ++ " " ++ name ++ ": " ++ content
  let w1 := { w with state := st1, embedLog := w.embedLog ++ [text] }
  match env.embed text with
  | none => (w1, .error .embedFailed)
  | some v =>
    if env.upsertOk then
      let vr : VectorRecord :=
        ⟨id, v, ⟨"knowledge", some type, some name, none, env.nowMs, content⟩⟩
      let ev : StateEvent :=
        ⟨"knowledge", if existing.isSome then "updated" else "created",
          type ++ "/" ++ name, some (content.take 100), now⟩
      ({ w1 with vectors := vectorUpsert w1.vectors vr, events := w1.events ++ [ev] },
        .ok id)
    else (w1, .error .vectorFailed)

/-- Models `MemoryAgent.saveJournal`.  `id` stands for the generated
`journal-<Date.now()>-<uuid-slice>` id.  Note the Vectorize sync runs for
every journal entry; only the broadcast is skipped for `intent ===
"audit"`. -/
def saveJournal (env : Env) (w : World)
    (id topic content : String) (intent : Option String) (now : String) :
    World × Except MErr String :=
  let st1 := { w.state with journal := w.state.journal ++ [⟨id, topic, content, intent, now⟩] }
  let text := topic ++ ": " ++ content
  let w1 := { w with state := st1, embedLog := w.embedLog ++ [text] }
  match env.embed text with
  | none => (w1, .error .embedFailed)
  | some v =>
    if env.upsertOk then
      let vr : VectorRecord :=
        ⟨id, v, ⟨"journal", none, none, some topic, env.nowMs, content⟩⟩
      let w2 := { w1 with vectors := vectorUpsert w1.vectors vr }
      let w3 :=
        if intent == some "audit" then w2
        else
          { w2 with events := w2.events ++
              [⟨"journal", "created", topic, some (content.take 100), now⟩] }
      (w3, .ok id)
    else (w1, .error .vectorFailed)

/-- Models `MemoryAgent.deleteKnowledge`: returns `false` and changes nothing if
the key is absent; otherwise removes the relational row, issues a
Vectorize delete for `knowledge-<type>-<name>`, and broadcasts. -/
def deleteKnowledge (w : World) (type name now : String) : World × Bool :=
  let id := knowledgeId type name
  match getKnowledge w.state type name with
  | none => (w, false)
  | some _ =>
    let st1 := { w.state with
      knowledge := w.state.knowledge.filter
        (fun k => !(k.type == type && k.name == name)) }
    let ev : StateEvent := ⟨"knowledge", "deleted", type ++ "/" ++ name, none, now⟩
    let w1 := { w with
      state := st1
      vectors := w.vectors.filter (fun v => !(v.id == id))
      vdeleteLog := w.vdeleteLog ++ [id]
      events := w.events ++ [ev] }
    (w1, true)

-- ==========================================
-- Schema migration (initSchema / migrateFromV1)
-- ==========================================

/-- Is a legacy row one of the three special core-context records? -/
def isSpecialOldRow (r : OldStateRow) : Bool :=
  (r.type == "identity" && r.name == "identity") ||
  (r.type == "today" && r.name == "today") ||
  (r.type == "person" && r.name == "user")

/-- Which core-context slot a special legacy row maps to. -/
def oldRowSlot (r : OldStateRow) : String :=
  if r.type == "identity" && r.name == "identity" then "identity"
  else if r.type == "today" && r.name == "today" then "today"
  else "human"

/-- The knowledge row a non-special legacy row migrates to: original
(type, name) key, `tags` NULL, both timestamps carried over. -/
def oldRowToKnowledge (r : OldStateRow) : KnowledgeRow :=
  ⟨knowledgeId r.type r.name, r.type, r.name, r.content, none,
    r.updated_at, r.updated_at⟩

/-- One iteration of the migration loop in `migrateFromV1`. -/
def migrateStep (st : TenantState) (r : OldStateRow) : TenantState :=
  if isSpecialOldRow r then
    coreUpsertRow st ⟨oldRowSlot r, r.content, r.updated_at⟩
  else
    knowledgeUpsertRow st (oldRowToKnowledge r)

/-- Models `MemoryAgent.migrateFromV1`: migrate every legacy row, then drop the
`state_files` table. -/
def migrateFromV1 (st : TenantState) (rows : List OldStateRow) : TenantState :=
  { rows.foldl migrateStep st with state_files := none }

/-- Models `MemoryAgent.initSchema`: run the migration iff the legacy table is
present; the `CREATE TABLE IF NOT EXISTS` statements have no effect on
existing data. -/
def initSchema (st : TenantState) : TenantState :=
  match st.state_files with
  | some rows => migrateFromV1 st rows
  | none => st

-- ==========================================
-- Query engine (queryMemory / semanticQuery / *Sql helpers)
-- ==========================================

/-- A `QueryResult` row as returned by `queryMemory`. -/
structure QueryResult where
  id : String
  type : String
  subtype : Option String
  topic : Option String
  name : Option String
  content : String
  score : Option ℚ
  timestamp : String
deriving DecidableEq, Repr

/-- Parameters of `queryMemory`. -/
structure QueryParams where
  query : Option String
  type : Option String
  knowledgeType : Option String
  topic : Option String
  since : Option String
  until_ : Option String
  limit : Option Int
  offset : Option Int
deriving DecidableEq, Repr

/-- The `WHERE` clause built by `queryJournalSql` (conditions added only
for truthy params, matching the JS `if (params.x)` guards). -/
def matchJournalRow (p : QueryParams) (r : JournalRow) : Bool :=
  (!(strTruthy p.topic) || r.topic == p.topic.getD "") &&
  (!(strTruthy p.since) || strLeB (p.since.getD "") r.timestamp) &&
  (!(strTruthy p.until_) || strLeB r.timestamp (p.until_.getD ""))

/-- The `WHERE` clause built by `queryKnowledgeSql`. -/
def matchKnowledgeRow (p : QueryParams) (r : KnowledgeRow) : Bool :=
  (!(strTruthy p.knowledgeType) || r.type == p.knowledgeType.getD "") &&
  (!(strTruthy p.since) || strLeB (p.since.getD "") r.updated_at) &&
  (!(strTruthy p.until_) || strLeB r.updated_at (p.until_.getD ""))

/-- SQL `ORDER BY timestamp DESC` over journal rows. -/
def sortJournalDesc (l : List JournalRow) : List JournalRow :=
  List.insertionSort (fun a b => strLeB b.timestamp a.timestamp = true) l

/-- SQL `ORDER BY updated_at DESC` over knowledge rows. -/
def sortKnowledgeDesc (l : List KnowledgeRow) : List KnowledgeRow :=
  List.insertionSort (fun a b => strLeB b.updated_at a.updated_at = true) l

/-- Models `MemoryAgent.queryJournalSql`: a COUNT of every match plus one page
of rows ordered by timestamp descending. -/
def queryJournalSql (st : TenantState) (p : QueryParams) (limit offset : Int) :
    List QueryResult × Int :=
  let matched := st.journal.filter (matchJournalRow p)
  let total : Int := matched.length
  let rows := sqlTake limit (sqlDrop offset (sortJournalDesc matched))
  (rows.map (fun r =>
      ⟨r.id, "journal", none, some r.topic, none, r.content, none, r.timestamp⟩),
    total)

/-- Models `MemoryAgent.queryKnowledgeSql`. -/
def queryKnowledgeSql (st : TenantState) (p : QueryParams) (limit offset : Int) :
    List QueryResult × Int :=
  let matched := st.knowledge.filter (matchKnowledgeRow p)
  let total : Int := matched.length
  let rows := sqlTake limit (sqlDrop offset (sortKnowledgeDesc matched))
  (rows.map (fun r =>
      ⟨r.id, "knowledge", some r.type, none, some r.name, r.content, none, r.updated_at⟩),
    total)

/-- Models `MemoryAgent.queryCoreContextSql`: every core-context row, unfiltered
and unlimited. -/
def queryCoreContextSql (st : TenantState) : List QueryResult :=
  st.core.map (fun r =>
    ⟨"core-" ++ r.which, "core", none, none, some r.which, r.content, none, r.updated_at⟩)

/-- Models `MemoryAgent.semanticQuery`: embed the query text, build a metadata
filter, ask Vectorize for `limit` nearest matches, and return them with
`total = results.length`.  The `offset` parameter is never read. -/
def semanticQuery (env : Env) (p : QueryParams) :
    Except MErr (List QueryResult × Int) :=
  if !(strTruthy p.query) then .ok ([], 0)
  else
    match env.embed (p.query.getD "") with
    | none => .error .embedFailed
    | some emb =>
      let limit := p.limit.getD 10
      let f : VFilter :=
        { typeEq :=
            match p.type with
            | some t => if !(t == "") && !(t == "all") then some t else none
            | none => none
          subtypeEq := if strTruthy p.knowledgeType then p.knowledgeType else none
          topicEq := if strTruthy p.topic then p.topic else none
          tsGte :=
            if strTruthy p.since then some (env.parseDateMs (p.since.getD "")) else none
          tsLte :=
            if strTruthy p.until_ then some (env.parseDateMs (p.until_.getD "")) else none }
      let hasFilter :=
        f.typeEq.isSome || f.subtypeEq.isSome || f.topicEq.isSome ||
        f.tsGte.isSome || f.tsLte.isSome
      let matched := env.vquery emb limit (if hasFilter then some f else none)
      let results := matched.map (fun m =>
        ⟨m.id, m.metadata.type, m.metadata.subtype, m.metadata.topic,
          m.metadata.name, m.metadata.content, some m.score,
          env.msToIso m.metadata.timestampMs⟩)
      .ok (results, (results.length : Int))

/-- Models `MemoryAgent.queryMemory`: the semantic path when `params.query` is
truthy, otherwise filtered relational scans (journal, then knowledge with
the remaining budget, then all core rows) truncated to `limit`. -/
def queryMemory (env : Env) (st : TenantState) (p : QueryParams) :
    Except MErr (List QueryResult × Int) :=
  let limit := p.limit.getD 10
  let offset := p.offset.getD 0
  if strTruthy p.query then semanticQuery env p
  else
    let typeFilter := p.type.getD "all"
    let jr :=
      if typeFilter == "all" || typeFilter == "journal" then
        queryJournalSql st p limit offset
      else ([], 0)
    let kr :=
      if typeFilter == "all" || typeFilter == "knowledge" then
        queryKnowledgeSql st p (limit - (jr.1.length : Int)) offset
      else ([], 0)
    let cr :=
      if typeFilter == "all" || typeFilter == "core" then
        queryCoreContextSql st
      else []
    let results := jr.1 ++ kr.1 ++ cr
    let total := jr.2 + kr.2 + (cr.length : Int)
    .ok (jsSlice0 limit results, total)

-- ==========================================
-- Conversation indexer (plugins/macrodata/src/indexer.ts)
-- ==========================================

/-- A derived (user prompt, assistant response) exchange.  `time` is the
user message's creation time in epoch milliseconds (the ISO string stored
in metadata round-trips to it). -/
structure Exchange where
  id : String
  time : Int
  userPrompt : String
  assistantSummary : String
  project : String
  projectPath : String
  sessionId : String
  messageId : String
deriving DecidableEq, Repr

/-- Metadata stored on a conversation vector item.  `timestamp = none`
models a missing or unparseable timestamp string. -/
structure ConvMeta where
  userPrompt : String
  assistantSummary : String
  project : String
  projectPath : String
  timestamp : Option Int
  sessionId : String
  messageId : String
deriving DecidableEq, Repr

/-- An item in the vectra conversation index. -/
structure ConvItem where
  id : String
  vector : List Int
  metadata : ConvMeta
deriving DecidableEq, Repr

/-- A raw nearest-neighbour result from `idx.queryItems`. -/
structure ConvQueryHit where
  item : ConvItem
  score : ℚ
deriving DecidableEq, Repr

/-- External collaborators of the indexer: the local embedding pipeline,
the vector index's nearest-neighbour search and `Date.now()`. -/
structure IndexEnv where
  embedB : String → List Int
  queryItems : List Int → Nat → List ConvQueryHit
  nowMs : Int

/-- A scored search result of `searchConversations`. -/
structure ConvSearchResult where
  exchange : ConvMeta
  id : String
  score : ℚ
  adjustedScore : ℚ
deriving DecidableEq, Repr

/-- One day in milliseconds. -/
def dayMs : Int := 86400000

/-- Models `getTimeWeight` in indexer.ts: a decay multiplier from the exchange's
age; an unparseable timestamp gives 0.5. -/
def getTimeWeight (nowMs : Int) (ts : Option Int) : ℚ :=
  match ts with
  | none => 1/2
  | some t =>
    let age := nowMs - t
    if age < 7 * dayMs then 1
    else if age < 30 * dayMs then 9/10
    else if age < 90 * dayMs then 7/10
    else if age < 365 * dayMs then 1/2
    else 3/10

/-- Does the boost guard `currentProject && projectPath === currentProject`
hold?  An absent or empty `currentProject` is falsy and never boosts. -/
def boostGuard (currentProject : Option String) (projectPath : String) : Bool :=
  match currentProject with
  | none => false
  | some p => !(p == "") && projectPath == p

/-- Options of `searchConversations`. -/
structure SearchOpts where
  currentProject : Option String
  limit : Option Nat
  projectOnly : Option Bool
deriving DecidableEq, Repr

/-- Models `searchConversations`: retrieve `3 × limit` nearest items, score each
as `score × timeWeight` with a further `× 1.5` when the project matches,
optionally filter to the current project, sort by adjusted score
descending and truncate to `limit`. -/
def searchConversations (env : IndexEnv) (items : List ConvItem)
    (query : String) (opts : SearchOpts) : List ConvSearchResult :=
  let currentProject := opts.currentProject
  let limit := opts.limit.getD 5
  let projectOnly := opts.projectOnly.getD false
  if items.length == 0 then []
  else
    let qv := env.embedB query
    let hits := env.queryItems qv (limit * 3)
    let searchResults := hits.map (fun r =>
      let adjusted0 := r.score * getTimeWeight env.nowMs r.item.metadata.timestamp
      let adjusted :=
        if boostGuard currentProject r.item.metadata.projectPath then
          adjusted0 * (3/2)
        else adjusted0
      ConvSearchResult.mk r.item.metadata r.item.id r.score adjusted)
    let filtered :=
      if projectOnly && strTruthy currentProject then
        searchResults.filter
          (fun r => r.exchange.projectPath == currentProject.getD "")
      else searchResults
    (List.insertionSort
      (fun a b => b.adjustedScore ≤ a.adjustedScore) filtered).take limit

/-- The id set already present in the index (`new Set(map id)`). -/
def indexIds (index : List ConvItem) : List String := index.map (·.id)

/-- One step of the `latestMs` scan: missing or unparseable timestamps
are skipped (`NaN > x` is false in JS). -/
def latestStep (acc : Int) (it : ConvItem) : Int :=
  match it.metadata.timestamp with
  | some ms => if acc < ms then ms else acc
  | none => acc

/-- The most recent parseable metadata timestamp in the index, starting
from 0 (`let latestMs = 0; ... if (ms > latestMs)`). -/
def latestMs (index : List ConvItem) : Int :=
  index.foldl latestStep 0

/-- The `sinceMs` bound used by `update()`: a 60 s overlap below the
latest indexed timestamp, or no bound when the index has none. -/
def sinceBound (index : List ConvItem) : Option Int :=
  if 0 < latestMs index then some (latestMs index - 60000) else none

/-- Models `queryExchanges`: the source rows, restricted to
`time_created > sinceMs` when a bound is given. -/
def queryExchanges (src : List Exchange) (sinceMs : Option Int) : List Exchange :=
  match sinceMs with
  | none => src
  | some s => src.filter (fun e => s < e.time)

/-- The vector item upserted for an exchange. -/
def exchangeItem (env : IndexEnv) (e : Exchange) : ConvItem :=
  ⟨e.id, env.embedB e.userPrompt,
    ⟨e.userPrompt, e.assistantSummary, e.project, e.projectPath,
      some e.time, e.sessionId, e.messageId⟩⟩

/-- Models `idx.upsertItem`: replace the item with the same id, else append. -/
def upsertItem (index : List ConvItem) (it : ConvItem) : List ConvItem :=
  if index.any (fun x => x.id == it.id) then
    index.map (fun x => if x.id == it.id then it else x)
  else index ++ [it]

/-- The "truly new" exchanges `update()` will embed and upsert. -/
def updateNewExchanges (src : List Exchange) (index : List ConvItem) :
    List Exchange :=
  (queryExchanges src (sinceBound index)).filter
    (fun e => !((indexIds index).contains e.id))

/-- Models `updateConversationIndex`: find new exchanges, upsert them, and
return `(index', newCount, totalCount)`. -/
def updateConversationIndex (env : IndexEnv) (src : List Exchange)
    (index : List ConvItem) : List ConvItem × Nat × Nat :=
  let newExchanges := updateNewExchanges src index
  if newExchanges.length == 0 then
    (index, 0, (indexIds index).dedup.length)
  else
    (newExchanges.foldl (fun acc e => upsertItem acc (exchangeItem env e)) index,
      newExchanges.length,
      (indexIds index).dedup.length + newExchanges.length)

-- ==========================================
-- Helper lemmas
-- ==========================================

theorem find?_filter_none {α} (l : List α) (p q : α → Bool)
    (h : ∀ a, q a = true → p a = false) : (l.filter q).find? p = none := by
  induction l with
  | nil => rfl
  | cons a t ih =>
    by_cases hq : q a = true
    · rw [List.filter_cons_of_pos hq, List.find?_cons_of_neg _ (by simp [h a hq])]
      exact ih
    · rw [List.filter_cons_of_neg (by simpa using hq)]
      exact ih

theorem getKnowledge_upsert_self (st : TenantState) (r : KnowledgeRow) :
    getKnowledge (knowledgeUpsertRow st r) r.type r.name = some r := by
  unfold getKnowledge knowledgeUpsertRow
  rw [List.find?_append, find?_filter_none, Option.none_or]
  · simp [List.find?_cons]
  · intro a ha
    simp only [Bool.not_eq_true'] at ha
    simp only [Bool.or_eq_false_iff] at ha
    exact ha.2

theorem getCoreContext_upsert_self (st : TenantState) (c : CoreRow) :
    getCoreContext (coreUpsertRow st c) c.which = some c := by
  unfold getCoreContext coreUpsertRow
  rw [List.find?_append, find?_filter_none, Option.none_or]
  · simp [List.find?_cons]
  · intro a ha
    simpa using ha

-- ==========================================
-- Concrete fixtures used by witnesses and counterexamples
-- ==========================================

/-- An environment whose embedding and vector calls all succeed. -/
def cEnv : Env :=
  ⟨fun _ => some [1], true, 1000, fun _ => "iso", fun _ => 0, fun _ _ _ => []⟩

/-- An environment whose embedding call fails. -/
def cEnvFail : Env :=
  ⟨fun _ => none, true, 1000, fun _ => "iso", fun _ => 0, fun _ _ _ => []⟩

/-- An empty tenant world. -/
def wEmpty : World := ⟨⟨[], [], [], none⟩, [], [], [], []⟩

/-- A tenant state with 5 journal rows, 5 knowledge rows and 1
core-context row, all matching the empty filter set. -/
def stC1 : TenantState :=
  ⟨[⟨"identity", "me", "t9"⟩],
   [⟨"k1", "kt", "kn1", "kc1", none, "t1", "t1"⟩,
    ⟨"k2", "kt", "kn2", "kc2", none, "t2", "t2"⟩,
    ⟨"k3", "kt", "kn3", "kc3", none, "t3", "t3"⟩,
    ⟨"k4", "kt", "kn4", "kc4", none, "t4", "t4"⟩,
    ⟨"k5", "kt", "kn5", "kc5", none, "t5", "t5"⟩],
   [⟨"j1", "t", "jc1", none, "t1"⟩,
    ⟨"j2", "t", "jc2", none, "t2"⟩,
    ⟨"j3", "t", "jc3", none, "t3"⟩,
    ⟨"j4", "t", "jc4", none, "t4"⟩,
    ⟨"j5", "t", "jc5", none, "t5"⟩],
   none⟩

/-- Parameters `type=all, limit=3`, no semantic text, no filters. -/
def pC1 : QueryParams := ⟨none, some "all", none, none, none, none, some 3, none⟩

-- ==========================================
-- C2: filtered-path total is the sum of per-family counts
-- ==========================================

/-- C2: for every filtered (no semantic text) `queryMemory` call, the
returned `total` is the sum of the independent per-family match counts
selected by the type filter — all matching journal rows, plus all
matching knowledge rows, plus the number of core-context rows — computed
independently of the truncation to `limit`, so it may exceed the length
of the returned list. -/
theorem queryMemory_filtered_total (env : Env) (st : TenantState) (p : QueryParams)
    (hq : strTruthy p.query = false) :
    (queryMemory env st p).map (fun out => out.2) =
      .ok ((if p.type.getD "all" == "all" || p.type.getD "all" == "journal" then
              ((st.journal.filter (matchJournalRow p)).length : Int) else 0) +
           (if p.type.getD "all" == "all" || p.type.getD "all" == "knowledge" then
              ((st.knowledge.filter (matchKnowledgeRow p)).length : Int) else 0) +
           (if p.type.getD "all" == "all" || p.type.getD "all" == "core" then
              (st.core.length : Int) else 0)) := by
  unfold queryMemory
  rw [hq]
  simp only [Bool.false_eq_true, if_false, queryJournalSql, queryKnowledgeSql,
    queryCoreContextSql, Except.map]
  split <;> split <;> split <;> simp_all

/-- C2 witness: on the 5-journal/5-knowledge/1-core state with
`limit=3`, the theorem gives `total = 11` while only 3 results are
returned. -/
theorem queryMemory_filtered_total_witness :
    strTruthy pC1.query = false ∧
    (queryMemory cEnv stC1 pC1).map (fun out => out.2) = .ok 11 ∧
    (queryMemory cEnv stC1 pC1).map (fun out => out.1.length) = .ok 3 :=
  ⟨by decide,
   (queryMemory_filtered_total cEnv stC1 pC1 (by decide)).trans (by rfl),
   by rfl⟩

-- ==========================================
-- C10: the semantic path never reads `offset`
-- ==========================================

/-- C10: when a non-empty semantic query text is present, two
`queryMemory` calls identical except for `offset` return identical
results and total — the semantic path passes the embedding to the vector
service with `topK = limit` and never reads `offset`. -/
theorem queryMemory_semantic_ignores_offset (env : Env) (st : TenantState)
    (p : QueryParams) (q : String) (hq : p.query = some q) (hne : q ≠ "")
    (o1 o2 : Option Int) :
    queryMemory env st { p with offset := o1 } =
    queryMemory env st { p with offset := o2 } := by
  have ht : strTruthy (some q) = true := by simp [strTruthy, hne]
  cases p
  simp only at hq
  subst hq
  simp only [queryMemory, ht, if_true]
  rfl

/-- C10 witness: a concrete semantic call where changing the offset from
0 to 7 leaves the answer unchanged. -/
theorem queryMemory_semantic_ignores_offset_witness :
    (⟨some "hello", none, none, none, none, none, some 3, none⟩ :
        QueryParams).query = some "hello" ∧
    ("hello" : String) ≠ "" ∧
    queryMemory cEnv stC1
        { (⟨some "hello", none, none, none, none, none, some 3, none⟩ :
            QueryParams) with offset := some 0 } =
      queryMemory cEnv stC1
        { (⟨some "hello", none, none, none, none, none, some 3, none⟩ :
            QueryParams) with offset := some 7 } :=
  ⟨rfl, by decide,
   queryMemory_semantic_ignores_offset cEnv stC1
     ⟨some "hello", none, none, none, none, none, some 3, none⟩ "hello" rfl
     (by decide) (some 0) (some 7)⟩

-- ==========================================
-- C4: vector-sync failure propagates but the relational write stays
-- ==========================================

/-- C4: for each mutating write (`saveCoreContext`, `saveKnowledge`,
`saveJournal`), if the embedding request or the vector upsert fails the
operation surfaces a dependency failure to its caller AND the relational
row written before the failure is still present (no rollback). -/
theorem mutatingWrite_failure_keeps_relational (env : Env) (w : World)
    (which c now t n kc : String) (tags : Option (List String))
    (jid jtopic jc : String) (intent : Option String) :
    (env.embed (which ++ ": " ++ c) = none ∨ env.upsertOk = false →
      ((saveCoreContext env w which c now).2 = .error .embedFailed ∨
       (saveCoreContext env w which c now).2 = .error .vectorFailed) ∧
      getCoreContext (saveCoreContext env w which c now).1.state which =
        some ⟨which, c, now⟩) ∧
    (env.embed (t ++ " " ++ n ++ ": " ++ kc) = none ∨ env.upsertOk = false →
      ((saveKnowledge env w t n kc tags now).2 = .error .embedFailed ∨
       (saveKnowledge env w t n kc tags now).2 = .error .vectorFailed) ∧
      getKnowledge (saveKnowledge env w t n kc tags now).1.state t n =
        some ⟨knowledgeId t n, t, n, kc, tags,
          ((getKnowledge w.state t n).map (·.created_at)).getD now, now⟩) ∧
    (env.embed (jtopic ++ ": " ++ jc) = none ∨ env.upsertOk = false →
      ((saveJournal env w jid jtopic jc intent now).2 = .error .embedFailed ∨
       (saveJournal env w jid jtopic jc intent now).2 = .error .vectorFailed) ∧
      (⟨jid, jtopic, jc, intent, now⟩ : JournalRow) ∈
        (saveJournal env w jid jtopic jc intent now).1.state.journal) := by
  refine ⟨?_, ?_, ?_⟩
  · intro h
    unfold saveCoreContext
    rcases hembed : env.embed (which ++ ": " ++ c) with _ | v
    · simp only [hembed]
      exact ⟨Or.inl trivial, getCoreContext_upsert_self w.state ⟨which, c, now⟩⟩
    · rcases h with h | h
      · rw [hembed] at h; cases h
      · simp only [hembed, h, Bool.false_eq_true, if_false]
        exact ⟨Or.inr trivial, getCoreContext_upsert_self w.state ⟨which, c, now⟩⟩
  · intro h
    unfold saveKnowledge
    rcases hembed : env.embed (t ++ " " ++ n ++ ": " ++ kc) with _ | v
    · simp only [hembed]
      exact ⟨Or.inl trivial, getKnowledge_upsert_self w.state _⟩
    · rcases h with h | h
      · rw [hembed] at h; cases h
      · simp only [hembed, h, Bool.false_eq_true, if_false]
        exact ⟨Or.inr trivial, getKnowledge_upsert_self w.state _⟩
  · intro h
    unfold saveJournal
    rcases hembed : env.embed (jtopic ++ ": " ++ jc) with _ | v
    · simp only [hembed]
      exact ⟨Or.inl trivial, by simp⟩
    · rcases h with h | h
      · rw [hembed] at h; cases h
      · simp only [hembed, h, Bool.false_eq_true, if_false]
        exact ⟨Or.inr trivial, by simp⟩

/-- C4 witness: with an embedding service that fails, saving knowledge
surfaces the dependency failure while the row is readable afterwards. -/
theorem mutatingWrite_failure_keeps_relational_witness :
    ((saveKnowledge cEnvFail wEmpty "project" "acme" "uses JWT" none "d1").2 =
        .error .embedFailed ∨
     (saveKnowledge cEnvFail wEmpty "project" "acme" "uses JWT" none "d1").2 =
        .error .vectorFailed) ∧
    getKnowledge (saveKnowledge cEnvFail wEmpty "project" "acme" "uses JWT" none
        "d1").1.state "project" "acme" =
      some ⟨knowledgeId "project" "acme", "project", "acme", "uses JWT", none,
        ((getKnowledge wEmpty.state "project" "acme").map (·.created_at)).getD "d1",
        "d1"⟩ :=
  (mutatingWrite_failure_keeps_relational cEnvFail wEmpty "identity" "me" "d1"
      "project" "acme" "uses JWT" none "j1" "build" "fixed" none).2.1
    (Or.inl rfl)

-- ==========================================
-- C3 (corrected): audit journal entries still sync to the vector index
-- ==========================================

/-- C3 counterexample: appending a journal entry with `intent="audit"`
DOES change the vector index and DOES request an embedding, refuting the
claim that the Vector Synchronizer is not invoked for suppressed-intent
journal writes. -/
theorem saveJournal_audit_counterexample :
    (saveJournal cEnv wEmpty "j1" "build" "Fixed CI flake" (some "audit")
        "d1").1.vectors ≠ wEmpty.vectors ∧
    (saveJournal cEnv wEmpty "j1" "build" "Fixed CI flake" (some "audit")
        "d1").1.embedLog ≠ wEmpty.embedLog := by
  decide

/-- C3 amended: for a journal append with the suppressed marker
(`intent="audit"`), only the ChangeEvent broadcast is suppressed; the
embedding is still requested and the VectorRecord still upserted, so the
vector index is changed by that write. -/
theorem saveJournal_audit_syncs_but_no_event (env : Env) (w : World)
    (id topic content now : String) (v : List Int)
    (hembed : env.embed (topic ++ ": " ++ content) = some v)
    (hup : env.upsertOk = true) :
    (saveJournal env w id topic content (some "audit") now).1.events = w.events ∧
    (saveJournal env w id topic content (some "audit") now).1.embedLog =
      w.embedLog ++ [topic ++ ": " ++ content] ∧
    (saveJournal env w id topic content (some "audit") now).1.vectors =
      vectorUpsert w.vectors
        ⟨id, v, ⟨"journal", none, none, some topic, env.nowMs, content⟩⟩ := by
  unfold saveJournal
  simp [hembed, hup]

/-- C3 amended witness: a concrete audit append with a working embedding
service leaves the event log untouched while logging an embedding request
and upserting the vector record. -/
theorem saveJournal_audit_syncs_but_no_event_witness :
    (saveJournal cEnv wEmpty "j1" "build" "x" (some "audit") "d1").1.events =
      wEmpty.events ∧
    (saveJournal cEnv wEmpty "j1" "build" "x" (some "audit") "d1").1.embedLog =
      wEmpty.embedLog ++ ["build" ++ ": " ++ "x"] ∧
    (saveJournal cEnv wEmpty "j1" "build" "x" (some "audit") "d1").1.vectors =
      vectorUpsert wEmpty.vectors
        ⟨"j1", [1], ⟨"journal", none, none, some "build", cEnv.nowMs, "x"⟩⟩ :=
  saveJournal_audit_syncs_but_no_event cEnv wEmpty "j1" "build" "x" "d1" [1]
    rfl rfl

-- ==========================================
-- C5: knowledge save/get round-trip and created_at preservation
-- ==========================================

/-- Whatever the vector path does, the relational state after
`saveKnowledge` is the committed upsert. -/
theorem saveKnowledge_state (env : Env) (w : World)
    (t n c : String) (tags : Option (List String)) (now : String) :
    (saveKnowledge env w t n c tags now).1.state =
      knowledgeUpsertRow w.state
        ⟨knowledgeId t n, t, n, c, tags,
          ((getKnowledge w.state t n).map (·.created_at)).getD now, now⟩ := by
  unfold saveKnowledge
  cases henv : env.embed (t ++ " " ++ n ++ ": " ++ c) with
  | none => simp [henv]
  | some v =>
    by_cases hup : env.upsertOk = true <;> simp [henv, hup]

/-- C5: `saveKnowledge` then `getKnowledge` returns the saved content; a
second `saveKnowledge` with the same (type, name) key updates the content
while `created_at` still equals the value the first save produced. -/
theorem saveKnowledge_roundtrip (env1 env2 : Env) (w : World)
    (t n c1 c2 : String) (tags1 tags2 : Option (List String)) (now1 now2 : String) :
    (getKnowledge (saveKnowledge env1 w t n c1 tags1 now1).1.state t n).map
        (·.content) = some c1 ∧
    (getKnowledge (saveKnowledge env2 (saveKnowledge env1 w t n c1 tags1 now1).1
          t n c2 tags2 now2).1.state t n).map (·.content) = some c2 ∧
    (getKnowledge (saveKnowledge env2 (saveKnowledge env1 w t n c1 tags1 now1).1
          t n c2 tags2 now2).1.state t n).map (·.created_at) =
      (getKnowledge (saveKnowledge env1 w t n c1 tags1 now1).1.state t n).map
        (·.created_at) := by
  have h1 : getKnowledge (saveKnowledge env1 w t n c1 tags1 now1).1.state t n =
      some ⟨knowledgeId t n, t, n, c1, tags1,
        ((getKnowledge w.state t n).map (·.created_at)).getD now1, now1⟩ := by
    rw [saveKnowledge_state]
    exact getKnowledge_upsert_self w.state _
  have h2 : getKnowledge (saveKnowledge env2 (saveKnowledge env1 w t n c1 tags1
        now1).1 t n c2 tags2 now2).1.state t n =
      some ⟨knowledgeId t n, t, n, c2, tags2,
        ((getKnowledge (saveKnowledge env1 w t n c1 tags1 now1).1.state t n).map
          (·.created_at)).getD now2, now2⟩ := by
    rw [saveKnowledge_state]
    exact getKnowledge_upsert_self _ _
  refine ⟨by rw [h1]; rfl, by rw [h2]; rfl, ?_⟩
  rw [h1] at h2 ⊢
  rw [h2]
  rfl

-- ==========================================
-- C6: deleteKnowledge semantics
-- ==========================================

/-- C6: deleting a non-existent knowledge key returns `false` and changes
nothing at all; deleting an existing key returns `true`, removes the
relational row (a subsequent `getKnowledge` misses) and issues a vector
delete for `knowledge-<type>-<name>` so no vector record with that id
remains. -/
theorem deleteKnowledge_spec (w : World) (t n now : String) :
    (getKnowledge w.state t n = none → deleteKnowledge w t n now = (w, false)) ∧
    (∀ r, getKnowledge w.state t n = some r →
      (deleteKnowledge w t n now).2 = true ∧
      getKnowledge (deleteKnowledge w t n now).1.state t n = none ∧
      (deleteKnowledge w t n now).1.vdeleteLog =
        w.vdeleteLog ++ [knowledgeId t n] ∧
      ∀ vr ∈ (deleteKnowledge w t n now).1.vectors, vr.id ≠ knowledgeId t n) := by
  constructor
  · intro h
    unfold deleteKnowledge
    simp [h]
  · intro r h
    unfold deleteKnowledge
    simp only [h]
    refine ⟨trivial, ?_, trivial, ?_⟩
    · exact find?_filter_none _ _ _
        (fun a ha => by simp only [Bool.not_eq_true'] at ha; exact ha)
    · intro vr hm
      have := (List.mem_filter.1 hm).2
      simpa using this

/-- A world holding exactly one knowledge row `("a", "b")`. -/
def wK : World :=
  ⟨⟨[], [⟨"knowledge-a-b", "a", "b", "c", none, "d1", "d1"⟩], [], none⟩,
    [⟨"knowledge-a-b", [1], ⟨"knowledge", some "a", some "b", none, 0, "c"⟩⟩],
    [], [], []⟩

/-- C6 witness: both branches of the theorem at concrete inputs — a miss
on `("x","y")` changes nothing and returns false; a hit on `("a","b")`
returns true, removes the row and issues the vector delete. -/
theorem deleteKnowledge_spec_witness :
    deleteKnowledge wK "x" "y" "d2" = (wK, false) ∧
    (deleteKnowledge wK "a" "b" "d2").2 = true ∧
    getKnowledge (deleteKnowledge wK "a" "b" "d2").1.state "a" "b" = none ∧
    (deleteKnowledge wK "a" "b" "d2").1.vdeleteLog = [knowledgeId "a" "b"] :=
  ⟨(deleteKnowledge_spec wK "x" "y" "d2").1 rfl,
   ((deleteKnowledge_spec wK "a" "b" "d2").2 _ rfl).1,
   ((deleteKnowledge_spec wK "a" "b" "d2").2 _ rfl).2.1,
   ((deleteKnowledge_spec wK "a" "b" "d2").2 _ rfl).2.2.1⟩

-- ==========================================
-- C1 (corrected): a full journal page displaces the core rows
-- ==========================================

theorem length_sqlDrop (o : Int) (l : List α) :
    (sqlDrop o l).length = l.length - o.toNat := by
  unfold sqlDrop
  split
  · have : o.toNat = 0 := Int.toNat_of_nonpos (by omega)
    simp [this]
  · simp

theorem length_sqlTake (n : Int) (l : List α) (hn : 0 ≤ n)
    (h : n.toNat ≤ l.length) : (sqlTake n l).length = n.toNat := by
  unfold sqlTake
  rw [if_neg (by omega)]
  simp [Nat.min_eq_left h]

theorem sortJournalDesc_length (l : List JournalRow) :
    (sortJournalDesc l).length = l.length := by
  unfold sortJournalDesc
  exact (List.perm_insertionSort _ _).length_eq

/-- When the journal scan can fill its whole page, it returns exactly
`limit` rows. -/
theorem queryJournalSql_full_length (st : TenantState) (p : QueryParams)
    (limit offset : Int) (hl : 0 ≤ limit)
    (h : limit.toNat + offset.toNat ≤
      (st.journal.filter (matchJournalRow p)).length) :
    (queryJournalSql st p limit offset).1.length = limit.toNat := by
  unfold queryJournalSql
  simp only [List.length_map]
  have hdl : (sqlDrop offset
      (sortJournalDesc (st.journal.filter (matchJournalRow p)))).length =
      (st.journal.filter (matchJournalRow p)).length - offset.toNat := by
    rw [length_sqlDrop, sortJournalDesc_length]
  rw [length_sqlTake _ _ hl (by rw [hdl]; omega)]

theorem queryKnowledgeSql_zero (st : TenantState) (p : QueryParams) (o : Int) :
    (queryKnowledgeSql st p 0 o).1 = [] := by
  unfold queryKnowledgeSql sqlTake
  simp

/-- C1 amended: with no semantic text, `type=all`, a non-negative limit,
and at least `limit + offset` journal rows matching the filters, the
returned list is exactly the journal page — the final `slice(0, limit)`
keeps the first `limit` collected rows (journal first, knowledge second,
core appended last), so every returned row is a journal row and the
core-context rows ARE excluded whenever the journal scan filled the
budget. -/
theorem queryMemory_full_journal_excludes_core (env : Env) (st : TenantState)
    (p : QueryParams) (hq : strTruthy p.query = false)
    (ht : p.type.getD "all" = "all") (hl : 0 ≤ p.limit.getD 10)
    (hfull : (p.limit.getD 10).toNat + (p.offset.getD 0).toNat ≤
      (st.journal.filter (matchJournalRow p)).length) :
    (queryMemory env st p).map Prod.fst =
      .ok (queryJournalSql st p (p.limit.getD 10) (p.offset.getD 0)).1 ∧
    ∀ out, queryMemory env st p = .ok out → ∀ r ∈ out.1, r.type = "journal" := by
  have hjlen := queryJournalSql_full_length st p (p.limit.getD 10)
    (p.offset.getD 0) hl hfull
  have hmain : (queryMemory env st p).map Prod.fst =
      .ok (queryJournalSql st p (p.limit.getD 10) (p.offset.getD 0)).1 := by
    unfold queryMemory
    rw [hq]
    simp only [Bool.false_eq_true, if_false, ht]
    have h1 : (("all" == "all" || "all" == "journal") = true) := by decide
    have h2 : (("all" == "all" || "all" == "knowledge") = true) := by decide
    have h3 : (("all" == "all" || "all" == "core") = true) := by decide
    simp only [h1, h2, h3, if_true]
    have hzero : p.limit.getD 10 -
        ((queryJournalSql st p (p.limit.getD 10) (p.offset.getD 0)).1.length : Int)
        = 0 := by
      rw [hjlen]; omega
    rw [hzero, queryKnowledgeSql_zero]
    simp only [List.append_nil, Except.map]
    unfold jsSlice0
    rw [if_neg (by omega)]
    rw [← hjlen, List.take_left]
  refine ⟨hmain, ?_⟩
  intro out hout r hr
  rw [hout] at hmain
  simp only [Except.map, Except.ok.injEq] at hmain
  rw [show out.1 = (queryJournalSql st p (p.limit.getD 10) (p.offset.getD 0)).1
    from hmain] at hr
  unfold queryJournalSql at hr
  simp only at hr
  obtain ⟨jrow, _, hform⟩ := List.mem_map.1 hr
  rw [← hform]

/-- C1 counterexample: on a state with 5 matching journal rows, 5
matching knowledge rows and 1 core-context row, the filtered
`queryMemory` with `type=all` and `limit=3` returns no core-context row
at all, refuting the claim that the core row is always included. -/
theorem queryMemory_core_excluded_counterexample :
    (queryMemory cEnv stC1 pC1).map
      (fun out => out.1.all (fun r => !(r.type == "core"))) = .ok true := by
  rfl

/-- C1 amended witness: the same concrete state discharges the amended
theorem's hypotheses, and the result is exactly the 3-row journal page. -/
theorem queryMemory_full_journal_excludes_core_witness :
    strTruthy pC1.query = false ∧
    (queryMemory cEnv stC1 pC1).map Prod.fst =
      .ok (queryJournalSql stC1 pC1 (pC1.limit.getD 10) (pC1.offset.getD 0)).1 :=
  ⟨by decide,
   (queryMemory_full_journal_excludes_core cEnv stC1 pC1 (by decide) (by decide)
      (by decide) (by decide)).1⟩

-- ==========================================
-- C8 (corrected): conversation search scoring
-- ==========================================

/-- C8 amended: every result's adjusted score is
`score × timeWeight × boost`, where the boost is 1.5 exactly when
`currentProject` is a non-empty string equal to the exchange's project
path (JS truthiness: an empty `currentProject` never boosts) and 1.0
otherwise; the time weight brackets are as specified (6 days old → 1.0,
8 days old → 0.9, unparseable → 0.5); and a boosted result scores
exactly 1.5× an otherwise-identical unboosted one. -/
theorem searchConversations_scoring (env : IndexEnv) (items : List ConvItem)
    (query : String) (opts : SearchOpts) :
    (∀ r ∈ searchConversations env items query opts,
      r.adjustedScore = r.score * getTimeWeight env.nowMs r.exchange.timestamp *
        (if boostGuard opts.currentProject r.exchange.projectPath then 3/2 else 1)) ∧
    (∀ now : Int, getTimeWeight now (some (now - 6 * dayMs)) = 1 ∧
      getTimeWeight now (some (now - 8 * dayMs)) = 9/10 ∧
      getTimeWeight now none = 1/2) ∧
    (∀ r1 ∈ searchConversations env items query opts,
      ∀ r2 ∈ searchConversations env items query opts,
      r1.score = r2.score → r1.exchange.timestamp = r2.exchange.timestamp →
      boostGuard opts.currentProject r1.exchange.projectPath = true →
      boostGuard opts.currentProject r2.exchange.projectPath = false →
      r1.adjustedScore = 3/2 * r2.adjustedScore) := by
  have hform : ∀ r ∈ searchConversations env items query opts,
      r.adjustedScore = r.score * getTimeWeight env.nowMs r.exchange.timestamp *
        (if boostGuard opts.currentProject r.exchange.projectPath then 3/2 else 1) := by
    intro r hr
    unfold searchConversations at hr
    by_cases hlen : (items.length == 0) = true
    · rw [if_pos hlen] at hr
      simp at hr
    · rw [if_neg hlen] at hr
      have hr2 := List.mem_of_mem_take hr
      have hr3 := ((List.perm_insertionSort _ _).mem_iff).1 hr2
      have hr4 : r ∈ (env.queryItems (env.embedB query)
          ((opts.limit.getD 5) * 3)).map (fun h =>
            ConvSearchResult.mk h.item.metadata h.item.id h.score
              (if boostGuard opts.currentProject h.item.metadata.projectPath then
                h.score * getTimeWeight env.nowMs h.item.metadata.timestamp * (3/2)
              else h.score * getTimeWeight env.nowMs h.item.metadata.timestamp)) := by
        by_cases hp : ((opts.projectOnly.getD false) && strTruthy opts.currentProject) = true
        · rw [if_pos hp] at hr3
          exact List.mem_of_mem_filter hr3
        · rw [if_neg hp] at hr3
          exact hr3
      obtain ⟨hit, _, hform⟩ := List.mem_map.1 hr4
      rw [← hform]
      by_cases hg : boostGuard opts.currentProject hit.item.metadata.projectPath = true
      · simp only [hg, if_true]
      · simp only [Bool.not_eq_true] at hg
        simp only [hg, Bool.false_eq_true, if_false, mul_one]
  refine ⟨hform, ?_, ?_⟩
  · intro now
    refine ⟨?_, ?_, ?_⟩
    · unfold getTimeWeight dayMs
      norm_num
    · unfold getTimeWeight dayMs
      norm_num
    · rfl
  · intro r1 h1 r2 h2 hs hts hg1 hg2
    rw [hform r1 h1, hform r2 h2, hs, hts, hg1, hg2]
    simp only [if_true, Bool.false_eq_true, if_false]
    ring

/-- Concrete single-item search fixtures for the C8 witness. -/
def convItemC8 : ConvItem :=
  ⟨"e1", [1], ⟨"hello", "resp", "proj", "pp", some 0, "s1", "m1"⟩⟩

/-- An index environment that finds exactly `convItemC8` with score 1. -/
def envC8 : IndexEnv := ⟨fun _ => [1], fun _ _ => [⟨convItemC8, 1⟩], 0⟩

/-- Search options matching `convItemC8`'s project path. -/
def optsC8 : SearchOpts := ⟨some "pp", none, none⟩

/-- The one result of the concrete C8 search. -/
def resC8 : ConvSearchResult :=
  ⟨⟨"hello", "resp", "proj", "pp", some 0, "s1", "m1"⟩, "e1", 1, 3/2⟩

theorem searchConversations_C8_output :
    searchConversations envC8 [convItemC8] "q" optsC8 = [resC8] := by
  unfold searchConversations envC8 convItemC8 optsC8 resC8
  simp [getTimeWeight, dayMs, boostGuard, strTruthy,
    List.insertionSort, List.orderedInsert]

/-- C8 witness: the concrete boosted result satisfies the scoring
formula with boost 1.5. -/
theorem searchConversations_scoring_witness :
    resC8 ∈ searchConversations envC8 [convItemC8] "q" optsC8 ∧
    resC8.adjustedScore = resC8.score *
      getTimeWeight envC8.nowMs resC8.exchange.timestamp *
      (if boostGuard optsC8.currentProject resC8.exchange.projectPath then 3/2
       else 1) :=
  ⟨by rw [searchConversations_C8_output]; exact List.mem_singleton.mpr rfl,
   (searchConversations_scoring envC8 [convItemC8] "q" optsC8).1 resC8
     (by rw [searchConversations_C8_output]; exact List.mem_singleton.mpr rfl)⟩

/-- An exchange whose project path is the empty string. -/
def convItemC8e : ConvItem :=
  ⟨"e1", [1], ⟨"hello", "resp", "unknown", "", some 0, "s1", "m1"⟩⟩

/-- An index environment that finds exactly `convItemC8e` with score 1. -/
def envC8e : IndexEnv := ⟨fun _ => [1], fun _ _ => [⟨convItemC8e, 1⟩], 0⟩

/-- Search options with `currentProject = ""` (falsy in JS). -/
def optsC8e : SearchOpts := ⟨some "", none, none⟩

/-- C8 counterexample: with `currentProject = ""` and an exchange whose
project path is also `""`, the path equals `currentProject` yet the code
applies no boost — the actual adjusted score is 1, while the claim's
formula demands 1.5. -/
theorem searchConversations_boost_counterexample :
    (searchConversations envC8e [convItemC8e] "q" optsC8e).map
      (fun r => r.adjustedScore) = [1] ∧
    (searchConversations envC8e [convItemC8e] "q" optsC8e).map
      (fun r => r.score * getTimeWeight envC8e.nowMs r.exchange.timestamp *
        (if r.exchange.projectPath == "" then (3/2 : ℚ) else 1)) = [3/2] ∧
    (1 : ℚ) ≠ 3/2 := by
  refine ⟨?_, ?_, by norm_num⟩ <;>
    · unfold searchConversations envC8e convItemC8e optsC8e
      simp [getTimeWeight, dayMs, boostGuard, strTruthy,
        List.insertionSort, List.orderedInsert]

-- ==========================================
-- C7: v1 → v2 migration
-- ==========================================

/-- The core-context row a special legacy row migrates to. -/
def mapCoreRow (r : OldStateRow) : CoreRow := ⟨oldRowSlot r, r.content, r.updated_at⟩

theorem special_slot_inj (a b : OldStateRow) (ha : isSpecialOldRow a = true)
    (hb : isSpecialOldRow b = true) (hs : oldRowSlot a = oldRowSlot b) :
    a.type = b.type ∧ a.name = b.name := by
  simp only [isSpecialOldRow, Bool.or_eq_true, Bool.and_eq_true, beq_iff_eq] at ha hb
  rcases ha with (⟨h1, h2⟩ | ⟨h1, h2⟩) | ⟨h1, h2⟩ <;>
    rcases hb with (⟨h3, h4⟩ | ⟨h3, h4⟩) | ⟨h3, h4⟩ <;>
    · unfold oldRowSlot at hs
      rw [h1, h2, h3, h4] at hs
      simp at hs
      try exact ⟨h1.trans h3.symm, h2.trans h4.symm⟩

theorem pairwise_eq_of_eq_f {α β : Type} (f : α → β) :
    ∀ (l : List α), l.Pairwise (fun a b => f a ≠ f b) →
      ∀ a ∈ l, ∀ b ∈ l, f a = f b → a = b := by
  intro l hl
  induction hl with
  | nil => intro a ha; cases ha
  | cons hhead _ ih =>
    intro a ha b hb hf
    rcases List.mem_cons.1 ha with rfl | ha2 <;>
      rcases List.mem_cons.1 hb with rfl | hb2
    · rfl
    · exact absurd hf (hhead b hb2)
    · exact absurd hf.symm (hhead a ha2)
    · exact ih a ha2 b hb2 hf

theorem find?_eq_some_of_unique {α : Type} (l : List α) (p : α → Bool) (a : α)
    (ha : a ∈ l) (hpa : p a = true)
    (huniq : ∀ b ∈ l, p b = true → b = a) : l.find? p = some a := by
  induction l with
  | nil => cases ha
  | cons x t ih =>
    by_cases hx : p x = true
    · rw [List.find?_cons_of_pos _ hx, huniq x (List.mem_cons_self x t) hx]
    · rw [List.find?_cons_of_neg _ (by simp [hx])]
      rcases List.mem_cons.1 ha with rfl | hmem
      · exact absurd hpa hx
      · exact ih hmem (fun b hb hpb => huniq b (List.mem_cons_of_mem _ hb) hpb)

theorem migrate_fold_core :
    ∀ (rows : List OldStateRow) (st : TenantState),
      (∀ r ∈ rows, isSpecialOldRow r = true →
        ∀ c ∈ st.core, c.which ≠ oldRowSlot r) →
      rows.Pairwise (fun a b =>
        knowledgeId a.type a.name ≠ knowledgeId b.type b.name) →
      (rows.foldl migrateStep st).core =
        st.core ++ (rows.filter isSpecialOldRow).map mapCoreRow := by
  intro rows
  induction rows with
  | nil => intro st _ _; simp
  | cons r t ih =>
    intro st hfresh hdist
    rw [List.foldl_cons, List.filter_cons]
    by_cases hsp : isSpecialOldRow r = true
    · have hf : st.core.filter (fun c => !(c.which == oldRowSlot r)) = st.core :=
        List.filter_eq_self.mpr
          (fun c hc => by simpa using hfresh r (List.mem_cons_self r t) hsp c hc)
      have hcore_step : (migrateStep st r).core = st.core ++ [mapCoreRow r] := by
        unfold migrateStep coreUpsertRow
        rw [if_pos hsp]
        dsimp only
        rw [hf]
        rfl
      have hfresh2 : ∀ r2 ∈ t, isSpecialOldRow r2 = true →
          ∀ c ∈ (migrateStep st r).core, c.which ≠ oldRowSlot r2 := by
        intro r2 hr2 hsp2 c hc
        rw [hcore_step] at hc
        rcases List.mem_append.1 hc with hc1 | hc2
        · exact hfresh r2 (List.mem_cons_of_mem r hr2) hsp2 c hc1
        · rw [List.mem_singleton.1 hc2]
          intro hslot
          obtain ⟨hty, hna⟩ := special_slot_inj r r2 hsp hsp2 hslot
          exact (List.pairwise_cons.1 hdist).1 r2 hr2
            (by rw [knowledgeId, knowledgeId, hty, hna])
      rw [hsp, ih (migrateStep st r) hfresh2 (List.Pairwise.of_cons hdist),
        hcore_step]
      simp
    · have hspf : isSpecialOldRow r = false := by simpa using hsp
      have hcore_step : (migrateStep st r).core = st.core := by
        unfold migrateStep
        rw [if_neg (by simp [hspf])]
        rfl
      have hfresh2 : ∀ r2 ∈ t, isSpecialOldRow r2 = true →
          ∀ c ∈ (migrateStep st r).core, c.which ≠ oldRowSlot r2 := by
        intro r2 hr2 hsp2 c hc
        rw [hcore_step] at hc
        exact hfresh r2 (List.mem_cons_of_mem r hr2) hsp2 c hc
      rw [hspf, ih (migrateStep st r) hfresh2 (List.Pairwise.of_cons hdist),
        hcore_step]
      simp

theorem migrate_fold_knowledge :
    ∀ (rows : List OldStateRow) (st : TenantState),
      (∀ r ∈ rows, isSpecialOldRow r = false →
        ∀ k ∈ st.knowledge, k.id ≠ knowledgeId r.type r.name ∧
          ¬(k.type = r.type ∧ k.name = r.name)) →
      rows.Pairwise (fun a b =>
        knowledgeId a.type a.name ≠ knowledgeId b.type b.name) →
      (rows.foldl migrateStep st).knowledge =
        st.knowledge ++
          (rows.filter (fun r => !(isSpecialOldRow r))).map oldRowToKnowledge := by
  intro rows
  induction rows with
  | nil => intro st _ _; simp
  | cons r t ih =>
    intro st hfresh hdist
    rw [List.foldl_cons, List.filter_cons]
    by_cases hsp : isSpecialOldRow r = true
    · have hstep : (migrateStep st r).knowledge = st.knowledge := by
        unfold migrateStep coreUpsertRow
        rw [if_pos hsp]
      have hfresh2 : ∀ r2 ∈ t, isSpecialOldRow r2 = false →
          ∀ k ∈ (migrateStep st r).knowledge,
            k.id ≠ knowledgeId r2.type r2.name ∧
            ¬(k.type = r2.type ∧ k.name = r2.name) := by
        intro r2 hr2 hsp2 k hk
        rw [hstep] at hk
        exact hfresh r2 (List.mem_cons_of_mem r hr2) hsp2 k hk
      rw [hsp, ih (migrateStep st r) hfresh2 (List.Pairwise.of_cons hdist), hstep]
      simp
    · have hspf : isSpecialOldRow r = false := by simpa using hsp
      have hf : st.knowledge.filter (fun k =>
          !(k.id == (oldRowToKnowledge r).id ||
            (k.type == (oldRowToKnowledge r).type &&
             k.name == (oldRowToKnowledge r).name))) = st.knowledge := by
        apply List.filter_eq_self.mpr
        intro k hk
        obtain ⟨hid, hkey⟩ := hfresh r (List.mem_cons_self r t) hspf k hk
        simp only [oldRowToKnowledge] at hid hkey ⊢
        simp [hid]
        exact not_and_or.mp hkey
      have hstep : (migrateStep st r).knowledge =
          st.knowledge ++ [oldRowToKnowledge r] := by
        unfold migrateStep knowledgeUpsertRow
        rw [if_neg (by simp [hspf])]
        dsimp only
        rw [hf]
      have hfresh2 : ∀ r2 ∈ t, isSpecialOldRow r2 = false →
          ∀ k ∈ (migrateStep st r).knowledge,
            k.id ≠ knowledgeId r2.type r2.name ∧
            ¬(k.type = r2.type ∧ k.name = r2.name) := by
        intro r2 hr2 hsp2 k hk
        rw [hstep] at hk
        rcases List.mem_append.1 hk with hk1 | hk2
        · exact hfresh r2 (List.mem_cons_of_mem r hr2) hsp2 k hk1
        · rw [List.mem_singleton.1 hk2]
          have hne := (List.pairwise_cons.1 hdist).1 r2 hr2
          constructor
          · simpa [oldRowToKnowledge] using hne
          · intro ⟨hty, hna⟩
            simp only [oldRowToKnowledge] at hty hna
            exact hne (by rw [knowledgeId, knowledgeId, hty, hna])
      rw [hspf, ih (migrateStep st r) hfresh2 (List.Pairwise.of_cons hdist), hstep]
      simp

/-- The migrated state's core table when migration starts from an empty
v2 schema. -/
theorem initSchema_core (st : TenantState) (rows : List OldStateRow)
    (hsf : st.state_files = some rows) (hc0 : st.core = [])
    (hdist : rows.Pairwise (fun a b =>
      knowledgeId a.type a.name ≠ knowledgeId b.type b.name)) :
    (initSchema st).core = (rows.filter isSpecialOldRow).map mapCoreRow := by
  unfold initSchema
  rw [hsf]
  show (migrateFromV1 st rows).core = _
  unfold migrateFromV1
  show (rows.foldl migrateStep st).core = _
  rw [migrate_fold_core rows st (fun r _ _ c hc => by rw [hc0] at hc; cases hc) hdist,
    hc0]
  simp

/-- The migrated state's knowledge table when migration starts from an
empty v2 schema. -/
theorem initSchema_knowledge (st : TenantState) (rows : List OldStateRow)
    (hsf : st.state_files = some rows) (hk0 : st.knowledge = [])
    (hdist : rows.Pairwise (fun a b =>
      knowledgeId a.type a.name ≠ knowledgeId b.type b.name)) :
    (initSchema st).knowledge =
      (rows.filter (fun r => !(isSpecialOldRow r))).map oldRowToKnowledge := by
  unfold initSchema
  rw [hsf]
  show (migrateFromV1 st rows).knowledge = _
  unfold migrateFromV1
  show (rows.foldl migrateStep st).knowledge = _
  rw [migrate_fold_knowledge rows st
    (fun r _ _ k hk => by rw [hk0] at hk; cases hk) hdist, hk0]
  simp

/-- Looking up a migrated special row's core slot. -/
theorem migrate_core_lookup (st : TenantState) (rows : List OldStateRow)
    (hsf : st.state_files = some rows) (hc0 : st.core = [])
    (hdist : rows.Pairwise (fun a b =>
      knowledgeId a.type a.name ≠ knowledgeId b.type b.name))
    (r : OldStateRow) (hr : r ∈ rows) (hsp : isSpecialOldRow r = true) :
    getCoreContext (initSchema st) (oldRowSlot r) = some (mapCoreRow r) := by
  unfold getCoreContext
  rw [initSchema_core st rows hsf hc0 hdist]
  apply find?_eq_some_of_unique
  · exact List.mem_map_of_mem _ (List.mem_filter.2 ⟨hr, hsp⟩)
  · simp [mapCoreRow]
  · intro b hb hpb
    obtain ⟨r2, hr2f, hbeq⟩ := List.mem_map.1 hb
    obtain ⟨hr2, hsp2⟩ := List.mem_filter.1 hr2f
    rw [← hbeq] at hpb ⊢
    have hslot : oldRowSlot r2 = oldRowSlot r := by
      simpa [mapCoreRow] using hpb
    obtain ⟨hty, hna⟩ := special_slot_inj r2 r hsp2 hsp hslot
    rw [pairwise_eq_of_eq_f (fun x => knowledgeId x.type x.name) rows hdist
      r2 hr2 r hr
      (by show knowledgeId r2.type r2.name = knowledgeId r.type r.name
          rw [hty, hna])]

/-- Looking up a migrated non-special row's knowledge entry. -/
theorem migrate_knowledge_lookup (st : TenantState) (rows : List OldStateRow)
    (hsf : st.state_files = some rows) (hk0 : st.knowledge = [])
    (hdist : rows.Pairwise (fun a b =>
      knowledgeId a.type a.name ≠ knowledgeId b.type b.name))
    (r : OldStateRow) (hr : r ∈ rows) (hsp : isSpecialOldRow r = false) :
    getKnowledge (initSchema st) r.type r.name = some (oldRowToKnowledge r) := by
  unfold getKnowledge
  rw [initSchema_knowledge st rows hsf hk0 hdist]
  apply find?_eq_some_of_unique
  · exact List.mem_map_of_mem _ (List.mem_filter.2 ⟨hr, by simp [hsp]⟩)
  · simp [oldRowToKnowledge]
  · intro b hb hpb
    obtain ⟨r2, hr2f, hbeq⟩ := List.mem_map.1 hb
    obtain ⟨hr2, _⟩ := List.mem_filter.1 hr2f
    rw [← hbeq] at hpb ⊢
    have hkey : r2.type = r.type ∧ r2.name = r.name := by
      simpa [oldRowToKnowledge] using hpb
    rw [pairwise_eq_of_eq_f (fun x => knowledgeId x.type x.name) rows hdist
      r2 hr2 r hr
      (by show knowledgeId r2.type r2.name = knowledgeId r.type r.name
          rw [hkey.1, hkey.2])]

/-- C7 amended: for every legacy table content whose rows derive
pairwise-distinct `knowledge-<type>-<name>` ids (the condition the
counterexample shows is necessary), starting from the fresh v2 schema
the migration creates, the migration maps `person/user` to the `human`
slot, `identity/identity` and `today/today` to their slots, every other
row to a knowledge entry keyed by its original (type, name) with `tags`
unset and timestamps carried over, and drops the legacy table; when the
legacy table is absent, `initSchema` is a no-op. -/
theorem initSchema_migration (st : TenantState) (rows : List OldStateRow)
    (hsf : st.state_files = some rows) (hc0 : st.core = [])
    (hk0 : st.knowledge = [])
    (hdist : rows.Pairwise (fun a b =>
      knowledgeId a.type a.name ≠ knowledgeId b.type b.name)) :
    (initSchema st).state_files = none ∧
    (∀ r ∈ rows, r.type = "person" → r.name = "user" →
      getCoreContext (initSchema st) "human" =
        some ⟨"human", r.content, r.updated_at⟩) ∧
    (∀ r ∈ rows, r.type = "identity" → r.name = "identity" →
      getCoreContext (initSchema st) "identity" =
        some ⟨"identity", r.content, r.updated_at⟩) ∧
    (∀ r ∈ rows, r.type = "today" → r.name = "today" →
      getCoreContext (initSchema st) "today" =
        some ⟨"today", r.content, r.updated_at⟩) ∧
    (∀ r ∈ rows, isSpecialOldRow r = false →
      getKnowledge (initSchema st) r.type r.name = some (oldRowToKnowledge r)) ∧
    (∀ st2 : TenantState, st2.state_files = none → initSchema st2 = st2) := by
  refine ⟨?_, ?_, ?_, ?_, ?_, ?_⟩
  · unfold initSchema
    rw [hsf]
    rfl
  · intro r hr hp hn
    have hsp : isSpecialOldRow r = true := by simp [isSpecialOldRow, hp, hn]
    have hslot : oldRowSlot r = "human" := by simp [oldRowSlot, hp, hn]
    have := migrate_core_lookup st rows hsf hc0 hdist r hr hsp
    rw [hslot] at this
    rw [this]
    simp [mapCoreRow, hslot]
  · intro r hr hp hn
    have hsp : isSpecialOldRow r = true := by simp [isSpecialOldRow, hp, hn]
    have hslot : oldRowSlot r = "identity" := by simp [oldRowSlot, hp, hn]
    have := migrate_core_lookup st rows hsf hc0 hdist r hr hsp
    rw [hslot] at this
    rw [this]
    simp [mapCoreRow, hslot]
  · intro r hr hp hn
    have hsp : isSpecialOldRow r = true := by simp [isSpecialOldRow, hp, hn]
    have hslot : oldRowSlot r = "today" := by simp [oldRowSlot, hp, hn]
    have := migrate_core_lookup st rows hsf hc0 hdist r hr hsp
    rw [hslot] at this
    rw [this]
    simp [mapCoreRow, hslot]
  · intro r hr hsp
    exact migrate_knowledge_lookup st rows hsf hk0 hdist r hr hsp
  · intro st2 h2
    unfold initSchema
    rw [h2]

/-- A legacy table whose two rows have distinct (type, name) keys yet
derive the same knowledge id `knowledge-a-b-c`. -/
def stMc : TenantState :=
  ⟨[], [], [],
    some [⟨"1", "a-b", "c", "c1", "m1"⟩,
          ⟨"2", "a", "b-c", "c2", "m2"⟩]⟩

/-- C7 counterexample: the migration does NOT map every non-special
legacy record to a knowledge row keyed by its original (type, name) —
the keys ("a-b","c") and ("a","b-c") are distinct but both derive the id
`knowledge-a-b-c`, so the second `INSERT OR REPLACE` deletes the first
migrated row via the id primary-key conflict and `getKnowledge` misses
it after migration. -/
theorem initSchema_migration_counterexample :
    (initSchema stMc).state_files = none ∧
    getKnowledge (initSchema stMc) "a-b" "c" = none ∧
    getKnowledge (initSchema stMc) "a" "b-c" =
      some ⟨"knowledge-a-b-c", "a", "b-c", "c2", none, "m2", "m2"⟩ := by
  decide

/-- The concrete legacy state of the C7 witness scenario. -/
def stM : TenantState :=
  ⟨[], [], [],
    some [⟨"1", "person", "user", "Matt, GMT", "m1"⟩,
          ⟨"2", "project", "acme", "notes", "m2"⟩]⟩

/-- C7 witness: migrating the legacy `person/user` record yields
`getCoreContext("human").content = "Matt, GMT"`, the other record lands
in knowledge, and the legacy table is gone. -/
theorem initSchema_migration_witness :
    (initSchema stM).state_files = none ∧
    getCoreContext (initSchema stM) "human" =
      some ⟨"human", "Matt, GMT", "m1"⟩ ∧
    getKnowledge (initSchema stM) "project" "acme" =
      some ⟨knowledgeId "project" "acme", "project", "acme", "notes", none,
        "m2", "m2"⟩ := by
  have h := initSchema_migration stM
    [⟨"1", "person", "user", "Matt, GMT", "m1"⟩,
     ⟨"2", "project", "acme", "notes", "m2"⟩]
    rfl rfl rfl (by decide)
  exact ⟨h.1,
    h.2.1 ⟨"1", "person", "user", "Matt, GMT", "m1"⟩ (by decide) rfl rfl,
    h.2.2.2.2.1 ⟨"2", "project", "acme", "notes", "m2"⟩ (by decide) (by decide)⟩

-- ==========================================
-- C9: incremental conversation indexing is idempotent
-- ==========================================

theorem le_latestStep (acc : Int) (it : ConvItem) : acc ≤ latestStep acc it := by
  unfold latestStep
  cases it.metadata.timestamp with
  | none => exact le_refl acc
  | some ms =>
    dsimp only
    split
    · omega
    · exact le_refl acc

theorem le_latestFoldl : ∀ (l : List ConvItem) (acc : Int),
    acc ≤ l.foldl latestStep acc := by
  intro l
  induction l with
  | nil => intro acc; exact le_refl acc
  | cons x t ih =>
    intro acc
    rw [List.foldl_cons]
    exact le_trans (le_latestStep acc x) (ih (latestStep acc x))

theorem latestMs_append_le (a b : List ConvItem) :
    latestMs a ≤ latestMs (a ++ b) := by
  unfold latestMs
  rw [List.foldl_append]
  exact le_latestFoldl b _

theorem foldl_upsert_fresh (env : IndexEnv) :
    ∀ (l : List Exchange) (index : List ConvItem),
      (∀ e ∈ l, e.id ∉ indexIds index) →
      l.Pairwise (fun a b => a.id ≠ b.id) →
      l.foldl (fun acc e => upsertItem acc (exchangeItem env e)) index =
        index ++ l.map (exchangeItem env) := by
  intro l
  induction l with
  | nil => intro index _ _; simp
  | cons e t ih =>
    intro index hfresh hdist
    rw [List.foldl_cons]
    have hnotany : (index.any (fun x => x.id == (exchangeItem env e).id)) = false := by
      rw [List.any_eq_false]
      intro x hx
      have hne : x.id ≠ e.id := by
        intro hxe
        have hmm : e.id ∈ indexIds index := by
          unfold indexIds
          rw [← hxe]
          exact List.mem_map_of_mem _ hx
        exact hfresh e (List.mem_cons_self e t) hmm
      simp [exchangeItem, hne]
    have hstep : upsertItem index (exchangeItem env e) =
        index ++ [exchangeItem env e] := by
      unfold upsertItem
      rw [hnotany]
      simp
    rw [hstep, ih (index ++ [exchangeItem env e]) ?fresh
      (List.Pairwise.of_cons hdist)]
    · simp
    case fresh =>
      intro e2 he2 hmem
      unfold indexIds at hmem
      rw [List.map_append] at hmem
      rcases List.mem_append.1 hmem with h1 | h2
      · exact hfresh e2 (List.mem_cons_of_mem e he2) h1
      · have : e2.id = e.id := by
          simpa [exchangeItem] using h2
        exact (List.pairwise_cons.1 hdist).1 e2 he2 this.symm

theorem mem_queryExchanges {src : List Exchange} {s : Option Int} {e : Exchange}
    (h : e ∈ queryExchanges src s) : e ∈ src := by
  unfold queryExchanges at h
  cases s with
  | none => exact h
  | some v => exact (List.mem_filter.1 h).1

theorem time_of_mem_queryExchanges {src : List Exchange} {v : Int} {e : Exchange}
    (h : e ∈ queryExchanges src (some v)) : v < e.time := by
  unfold queryExchanges at h
  have := (List.mem_filter.1 h).2
  simpa using this

theorem sinceBound_cases {index : List ConvItem} {s : Int}
    (h : sinceBound index = some s) :
    s = latestMs index - 60000 ∧ 0 < latestMs index := by
  unfold sinceBound at h
  split at h
  · exact ⟨(Option.some.inj h).symm, by assumption⟩
  · cases h

/-- Calling `update()` with nothing new returns the index unchanged and adds 0. -/
theorem update_of_no_new (env : IndexEnv) (src : List Exchange)
    (index : List ConvItem) (h : updateNewExchanges src index = []) :
    updateConversationIndex env src index =
      (index, 0, (indexIds index).dedup.length) := by
  unfold updateConversationIndex
  rw [h]
  simp

/-- C9: `update()` is idempotent — a second call with an unchanged
source adds zero new items and leaves the collection unchanged — and it
never upserts an exchange whose id is already in the collection. -/
theorem updateConversationIndex_idempotent (env : IndexEnv)
    (src : List Exchange) (index : List ConvItem)
    (hsrc : src.Pairwise (fun a b => a.id ≠ b.id)) :
    (updateConversationIndex env src
        (updateConversationIndex env src index).1).2.1 = 0 ∧
    (updateConversationIndex env src
        (updateConversationIndex env src index).1).1 =
      (updateConversationIndex env src index).1 ∧
    ∀ e ∈ updateNewExchanges src index,
      (indexIds index).contains e.id = false := by
  have hfresh3 : ∀ e ∈ updateNewExchanges src index,
      (indexIds index).contains e.id = false := by
    intro e he
    have := List.of_mem_filter he
    simpa using this
  by_cases h0 : ((updateNewExchanges src index).length == 0) = true
  · have hnil : updateNewExchanges src index = [] := by
      simpa [List.length_eq_zero] using h0
    rw [update_of_no_new env src index hnil]
    rw [update_of_no_new env src index hnil]
    exact ⟨rfl, rfl, hfresh3⟩
  · have hfresh1 : ∀ e ∈ updateNewExchanges src index, e.id ∉ indexIds index := by
      intro e he
      have := hfresh3 e he
      simpa using this
    have hpw1 : (updateNewExchanges src index).Pairwise
        (fun a b => a.id ≠ b.id) := by
      have hsub1 : (queryExchanges src (sinceBound index)).Sublist src := by
        unfold queryExchanges
        cases sinceBound index with
        | none => exact List.Sublist.refl src
        | some v => exact List.filter_sublist src
      exact List.Pairwise.sublist ((List.filter_sublist _).trans hsub1) hsrc
    have hi1 : (updateConversationIndex env src index).1 =
        index ++ (updateNewExchanges src index).map (exchangeItem env) := by
      unfold updateConversationIndex
      rw [if_neg h0]
      exact foldl_upsert_fresh env _ index hfresh1 hpw1
    have hids1 : indexIds ((updateConversationIndex env src index).1) =
        indexIds index ++ (updateNewExchanges src index).map (·.id) := by
      rw [hi1]
      unfold indexIds
      rw [List.map_append, List.map_map]
      rfl
    have hlat1 : latestMs index ≤
        latestMs ((updateConversationIndex env src index).1) := by
      rw [hi1]
      exact latestMs_append_le index _
    have hempty : updateNewExchanges src
        ((updateConversationIndex env src index).1) = [] := by
      unfold updateNewExchanges
      rw [List.filter_eq_nil_iff]
      intro e heq
      have hin : e.id ∈ indexIds ((updateConversationIndex env src index).1) := by
        rw [hids1]
        by_cases hmem0 : e.id ∈ indexIds index
        · exact List.mem_append_left _ hmem0
        · refine List.mem_append_right _ ?_
          refine List.mem_map_of_mem _ ?_
          by_cases hq1 : e ∈ queryExchanges src (sinceBound index)
          · exact List.mem_filter.2 ⟨hq1, by simpa using hmem0⟩
          · exfalso
            cases hs1 : sinceBound index with
            | none =>
              rw [hs1] at hq1
              exact hq1 (mem_queryExchanges heq)
            | some s1 =>
              obtain ⟨hs1eq, hpos⟩ := sinceBound_cases hs1
              have hnt : ¬ s1 < e.time := by
                intro hlt
                apply hq1
                rw [hs1]
                exact List.mem_filter.2 ⟨mem_queryExchanges heq, by simpa⟩
              have hb2 : sinceBound ((updateConversationIndex env src index).1) =
                  some (latestMs ((updateConversationIndex env src index).1)
                    - 60000) := by
                unfold sinceBound
                rw [if_pos (by omega)]
              rw [hb2] at heq
              have ht2 := time_of_mem_queryExchanges heq
              omega
      simp [hin]
    rw [update_of_no_new env src _ hempty]
    exact ⟨rfl, rfl, hfresh3⟩

/-- A one-exchange source for the C9 witness. -/
def srcC9 : List Exchange := [⟨"e1", 1000, "hi", "resp", "p", "pp", "s1", "m1"⟩]

/-- The indexer environment for the C9 witness. -/
def envC9 : IndexEnv := ⟨fun _ => [1], fun _ _ => [], 0⟩

/-- C9 witness: running `update()` twice from an empty collection over a
one-exchange source adds the exchange once; the second run adds zero new
items and leaves the collection unchanged. -/
theorem updateConversationIndex_idempotent_witness :
    (updateConversationIndex envC9 srcC9
        (updateConversationIndex envC9 srcC9 []).1).2.1 = 0 ∧
    (updateConversationIndex envC9 srcC9
        (updateConversationIndex envC9 srcC9 []).1).1 =
      (updateConversationIndex envC9 srcC9 []).1 ∧
    (updateConversationIndex envC9 srcC9 []).2.1 = 1 :=
  ⟨(updateConversationIndex_idempotent envC9 srcC9 []
      (List.pairwise_singleton _ _)).1,
   (updateConversationIndex_idempotent envC9 srcC9 []
      (List.pairwise_singleton _ _)).2.1,
   by decide⟩

end Macrodata
